import Mathlib

/-!
Verification development for the RSS NewsHub core pipeline.

The definitions below are a shallow embedding of the repository's RSS
ingestion code:

* `fetchRSSFeed` / `fetchRSSFeedItems` embed `fetchRSSFeed(url, sourceName)`
  from `src/utils/rssParser.ts` (the resilient multi-proxy variant): per-item
  extraction, title/link validation, per-feed link dedup, publication-date
  window filtering, HTML stripping, description truncation, image extraction,
  and the final per-feed sort by publication date descending.  Host-provided
  behaviour (the JS `Date` parser, the categorizer, the generated id, the
  `<img src=...>` regex scan) is passed in through a `FetchEnv` record;
  timestamps are modelled as `Int` milliseconds.
* `fetchAllNews` embeds the `fetchAllNews` callback of the `NewsAggregator`
  component: filter to active feeds, error on zero active feeds, cap at 25
  feeds, per-feed fetch with a `catch` that substitutes `[]`, flatten,
  cross-feed dedup by `link` (first occurrence wins), global sort by
  publication date descending, favorite reconciliation by `link`, and the
  final state update.
-/

/-- Article record (`NewsItem` in `src/types`).  `pubDate` is stored by the
code as `pubDate.toISOString()` of the parsed `Date`; the embedding stores the
parsed timestamp itself as an `Int`. -/
structure NewsItem where
  id : String
  title : String
  description : String
  link : String
  pubDate : Int
  category : String
  source : String
  image : Option String
  isFavorite : Bool
deriving Repr, DecidableEq

/-- Feed configuration record (`RSSFeed` in `src/types`). -/
structure RSSFeed where
  id : String
  url : String
  title : String
  isActive : Bool
deriving Repr, DecidableEq

/-- Raw data extracted from one `<item>` node of the parsed XML document:
`title`, `description`, `link` and `pubDate` text contents (the code defaults
each to the empty string when the element is missing), and the two image
sources looked up on the DOM node, each `some` when the corresponding element
exists (carrying its `url` attribute, defaulted to `""` when absent). -/
structure RawItem where
  title : String
  description : String
  link : String
  pubDateString : String
  mediaContentUrl : Option String
  enclosureUrl : Option String
deriving Repr, DecidableEq

/-- Scans for a `>` character; on success returns the remainder of the list
after the first `>`.  This is the tail step of the regex `<[^>]*>`: from a
`<`, the match gobbles non-`>` characters and requires a closing `>`. -/
def dropThroughGt : List Char → Option (List Char)
  | [] => none
  | c :: rest => if c = '>' then some rest else dropThroughGt rest

/-- Fuel-indexed worker for `stripHtmlTags`; fuel bounds the recursion depth
(one unit per character consumed), keeping the recursion structural. -/
def stripHtmlAux : Nat → List Char → List Char
  | _, [] => []
  | 0, l => l
  | fuel + 1, c :: rest =>
    if c = '<' then
      match dropThroughGt rest with
      | some rest2 => stripHtmlAux fuel rest2
      | none => c :: rest
    else c :: stripHtmlAux fuel rest

/-- Embeds `s.replace(/<[^>]*>/g, '')`: every non-overlapping occurrence of a
`<`, followed by non-`>` characters, followed by `>`, is deleted, scanning
left to right.  When a `<` has no matching `>` anywhere to its right, no
further match can start, so the remainder is kept verbatim. -/
def stripHtmlTags (s : String) : String :=
  String.mk (stripHtmlAux s.data.length s.data)

/-- Embeds the JavaScript `String.prototype.trim` host function: strips
leading and trailing whitespace characters. -/
def jsTrim (s : String) : String :=
  String.mk
    (((s.data.dropWhile Char.isWhitespace).reverse.dropWhile
      Char.isWhitespace).reverse)

/-- Embeds `s.substring(0, n)`: the first `n` characters of the string. -/
def takeChars (n : Nat) (s : String) : String :=
  String.mk (s.data.take n)

/-- Host-provided behaviour that `fetchRSSFeed` closes over: `parseDate`
embeds `new Date(string)` (returning `none` for an Invalid Date, i.e. the
`isNaN(pubDate.getTime())` case); `oneYearAgo` and `now` embed the two `Date`
values computed at the top of the fetch (`oneYearAgo` is `now` with the year
decremented); `categorize` embeds `categorizeNews`; `genId` embeds the
generated identifier built from the source name, the item ordinal, the
current time and a random suffix; `imgScan` embeds the
`/<img[^>]+src="([^">]+)"/i` regex match on the description. -/
structure FetchEnv where
  parseDate : String → Option Int
  oneYearAgo : Int
  now : Int
  categorize : String → String → String
  genId : String → Nat → String
  imgScan : String → Option String

/-- Image extraction (priority order): the `media:content`/`content` element's
`url` attribute when that element exists, else the image-typed `enclosure`
element's `url` attribute when that element exists, else the regex match on
the description, else the empty string. -/
def extractImage (imgScan : String → Option String) (it : RawItem) : String :=
  match it.mediaContentUrl with
  | some u => u
  | none =>
    match it.enclosureUrl with
    | some u => u
    | none =>
      match imgScan it.description with
      | some u => u
      | none => ""

/-- Builds the `NewsItem` pushed for an accepted raw item with parsed
timestamp `t`: title and description are HTML-stripped, the description is
truncated to 200 characters and suffixed with an ellipsis, the link is stored
verbatim, `image` is `undefined` (here `none`) when the extracted string is
empty, and `isFavorite` starts out `false`. -/
def mkNewsItem (env : FetchEnv) (src : String) (idx : Nat) (it : RawItem)
    (t : Int) : NewsItem :=
  { id := env.genId src idx
    title := stripHtmlTags it.title
    description := takeChars 200 (stripHtmlTags it.description) ++ "..."
    link := it.link
    pubDate := t
    category := env.categorize it.title it.description
    source := src
    image :=
      (if extractImage env.imgScan it = "" then none
       else some (extractImage env.imgScan it))
    isFavorite := false }

/-- Per-item validation and construction, in the code's order: skip when the
raw title or raw link is empty after trimming, skip when the link was already
seen in this fetch, skip when the publication date is unparseable, strictly
older than one year ago, or strictly in the future; otherwise accept. -/
def processItem (env : FetchEnv) (src : String) (idx : Nat) (it : RawItem)
    (seen : List String) : Option NewsItem :=
  if jsTrim it.title = "" ∨ jsTrim it.link = "" then none
  else if seen.contains it.link then none
  else
    match env.parseDate it.pubDateString with
    | none => none
    | some t =>
      if t < env.oneYearAgo then none
      else if env.now < t then none
      else some (mkNewsItem env src idx it t)

/-- The `items.forEach` loop: `seen` accumulates the links of accepted items
only (the code calls `seenLinks.add(link)` after the validation checks), and
`idx` is the item ordinal used in the generated id. -/
def processItems (env : FetchEnv) (src : String) :
    List RawItem → Nat → List String → List NewsItem
  | [], _, _ => []
  | it :: rest, idx, seen =>
    match processItem env src idx it seen with
    | none => processItems env src rest (idx + 1) seen
    | some a => a :: processItems env src rest (idx + 1) (it.link :: seen)

/-- Comparison used by the sorts: `a` may come before `b` when `b`'s
publication date is at most `a`'s (descending order, newest first). -/
def dateGE (a b : NewsItem) : Prop := b.pubDate ≤ a.pubDate

instance : DecidableRel dateGE :=
  fun a b => inferInstanceAs (Decidable (b.pubDate ≤ a.pubDate))

instance : IsTotal NewsItem dateGE :=
  ⟨fun a b => le_total b.pubDate a.pubDate⟩

instance : IsTrans NewsItem dateGE :=
  ⟨fun _ _ _ h1 h2 => le_trans h2 h1⟩

/-- Embeds `.sort((a, b) => new Date(b.pubDate).getTime() - new
Date(a.pubDate).getTime())`: a stable sort by publication date descending
(JavaScript `Array.prototype.sort` is stable, and Mathlib's `insertionSort`
with this relation is the stable descending sort). -/
def sortByDateDesc (l : List NewsItem) : List NewsItem :=
  l.insertionSort dateGE

/-- The item-processing phase of `fetchRSSFeed` applied to the `<item>` nodes
of a successfully fetched and parsed document: validate/convert each item in
order, then sort by publication date descending. -/
def fetchRSSFeedItems (env : FetchEnv) (src : String)
    (items : List RawItem) : List NewsItem :=
  sortByDateDesc (processItems env src items 0 [])

/-- Outcome of the network/XML phase of one feed fetch: `fail` covers every
top-level failure (all proxies failed, non-OK status, timeout, empty content,
XML parser error), `ok items` is a successfully parsed document with its
`<item>` nodes (possibly zero of them). -/
inductive FetchOutcome where
  | fail : FetchOutcome
  | ok : List RawItem → FetchOutcome

/-- Embeds `fetchRSSFeed`: every top-level failure is caught and degraded to
the empty list (the catch block returns `[]` for network errors, timeouts and
all other errors); a parsed document goes through item processing. -/
def fetchRSSFeed (env : FetchEnv) (src : String) : FetchOutcome → List NewsItem
  | FetchOutcome.fail => []
  | FetchOutcome.ok items => fetchRSSFeedItems env src items

/-- State held by the `NewsAggregator` component that `fetchAllNews`
reads and writes: the visible article collection, the error message, the
last-updated timestamp, and the loading flag. -/
structure AggState where
  newsItems : List NewsItem
  error : Option String
  lastUpdated : Option Int
  isLoading : Bool
deriving Repr, DecidableEq

/-- Embeds the `.catch(err => { ...; return []; })` wrapper around each
per-feed fetch in `fetchAllNews`: a rejected fetch is collapsed to the empty
list, a fulfilled fetch yields its article list. -/
def settleFetch : Except String (List NewsItem) → List NewsItem
  | Except.error _ => []
  | Except.ok items => items

/-- Embeds `feeds.filter(feed => feed.isActive)`. -/
def activeFeedsOf (feeds : List RSSFeed) : List RSSFeed :=
  feeds.filter (fun feed => feed.isActive)

/-- Embeds `activeFeeds.slice(0, 25)`: at most the first 25 active feeds are
fetched in one pass. -/
def feedsToFetchOf (feeds : List RSSFeed) : List RSSFeed :=
  (activeFeedsOf feeds).take 25

/-- Embeds `(await Promise.all(allNewsPromises)).flat()`: the per-feed settled
results, in feed order, flattened into one pool.  `fetchFn` is the per-feed
fetch outcome (`fetchRSSFeed(feed.url, feed.title)` settled as fulfilled or
rejected). -/
def allNewsOf (feeds : List RSSFeed)
    (fetchFn : RSSFeed → Except String (List NewsItem)) : List NewsItem :=
  (List.map (fun feed => settleFetch (fetchFn feed)) (feedsToFetchOf feeds)).flatten

/-- Worker for the cross-feed dedup: keep an element exactly when its `link`
has not occurred earlier, accumulating the links already kept. -/
def keepFirstByLink : List String → List NewsItem → List NewsItem
  | _, [] => []
  | seen, a :: rest =>
    if seen.contains a.link then keepFirstByLink seen rest
    else a :: keepFirstByLink (a.link :: seen) rest

/-- Embeds `allNews.filter((item, index, self) => index === self.findIndex(t
=> t.link === item.link))`: an element is retained exactly when it is the
first occurrence of its `link` in the flattened pool. -/
def uniqueNewsOf (feeds : List RSSFeed)
    (fetchFn : RSSFeed → Except String (List NewsItem)) : List NewsItem :=
  keepFirstByLink [] (allNewsOf feeds fetchFn)

/-- The links currently marked favorite in the outgoing collection: embeds
`new Set(newsItems.filter(item => item.isFavorite).map(item => item.link))`. -/
def existingFavoriteLinks (items : List NewsItem) : List String :=
  (items.filter (fun item => item.isFavorite)).map (fun item => item.link)

/-- Embeds the success path of `fetchAllNews` from the flattened pool on:
dedup by link, sort by publication date descending, then re-mark each
article's `isFavorite` by membership of its `link` in the outgoing
collection's favorite links. -/
def newsWithFavoritesOf (feeds : List RSSFeed)
    (fetchFn : RSSFeed → Except String (List NewsItem))
    (oldItems : List NewsItem) : List NewsItem :=
  (sortByDateDesc (uniqueNewsOf feeds fetchFn)).map
    (fun item =>
      { item with
        isFavorite := (existingFavoriteLinks oldItems).contains item.link })

/-- Embeds the `fetchAllNews` callback as a state transition.  `fetchFn` gives
each feed's settled fetch outcome and `now` the wall-clock time recorded as
`lastUpdated` on success.  With zero active feeds the function sets the
configuration error and stops (articles and `lastUpdated` untouched);
otherwise it replaces the collection with the merged, deduplicated, sorted,
favorite-reconciled list, clears the error and records `lastUpdated`. -/
def fetchAllNews (feeds : List RSSFeed)
    (fetchFn : RSSFeed → Except String (List NewsItem))
    (now : Int) (s : AggState) : AggState :=
  if (activeFeedsOf feeds).length = 0 then
    { s with
      error := some "No active RSS feeds configured."
      isLoading := false }
  else
    { newsItems := newsWithFavoritesOf feeds fetchFn s.newsItems
      error := none
      lastUpdated := some now
      isLoading := false }

/-- Models the fan-in of `Promise.all`: given the number `n` of launched
fetches and the settled results tagged with their slot index in arbitrary
completion order, the joined array is read back in slot order (slot `i` holds
the first — and only — arrival tagged `i`, or `[]` if it never arrived). -/
def joinArrivals (n : Nat) (arrivals : List (Nat × List NewsItem)) :
    List (List NewsItem) :=
  (List.range n).map
    (fun i =>
      (Option.map Prod.snd ((arrivals.filter (fun p => p.1 = i)).head?)).getD [])

/-- Variant of `fetchAllNews` that makes the completion order of the
concurrent per-feed fetches explicit: `σ` lists the slot indices in the order
the fetches settle, and the per-slot results are reassembled with
`joinArrivals` before flattening, exactly as `Promise.all` reassembles
results by index regardless of completion order. -/
def fetchAllNewsScheduled (feeds : List RSSFeed)
    (fetchFn : RSSFeed → Except String (List NewsItem)) (σ : List Nat)
    (now : Int) (s : AggState) : AggState :=
  if (activeFeedsOf feeds).length = 0 then
    { s with
      error := some "No active RSS feeds configured."
      isLoading := false }
  else
    let results :=
      List.map (fun feed => settleFetch (fetchFn feed)) (feedsToFetchOf feeds)
    let arrivals := σ.map (fun i => (i, results.getD i []))
    let allNews := (joinArrivals results.length arrivals).flatten
    { newsItems :=
        (sortByDateDesc (keepFirstByLink [] allNews)).map
          (fun item =>
            { item with
              isFavorite :=
                (existingFavoriteLinks s.newsItems).contains item.link })
      error := none
      lastUpdated := some now
      isLoading := false }

/-! ### Helper lemmas -/

theorem contains_iff_mem {l : List String} {a : String} :
    l.contains a = true ↔ a ∈ l := by
  constructor
  · intro h
    exact List.elem_iff.mp h
  · intro h
    exact List.elem_iff.mpr h

theorem mem_sortByDateDesc {l : List NewsItem} {a : NewsItem} :
    a ∈ sortByDateDesc l ↔ a ∈ l :=
  (List.perm_insertionSort dateGE l).mem_iff

theorem sortByDateDesc_perm (l : List NewsItem) :
    (sortByDateDesc l).Perm l :=
  List.perm_insertionSort dateGE l

theorem sortByDateDesc_sorted (l : List NewsItem) :
    (sortByDateDesc l).Sorted dateGE :=
  List.sorted_insertionSort dateGE l

theorem keepFirstByLink_mem :
    ∀ (seen : List String) (l : List NewsItem) (a : NewsItem),
      a ∈ keepFirstByLink seen l → a ∈ l ∧ a.link ∉ seen
  | _, [], a, h => by simp [keepFirstByLink] at h
  | seen, b :: rest, a, h => by
    by_cases hb : seen.contains b.link
    · rw [keepFirstByLink, if_pos hb] at h
      obtain ⟨h1, h2⟩ := keepFirstByLink_mem seen rest a h
      exact ⟨List.mem_cons_of_mem b h1, h2⟩
    · rw [keepFirstByLink, if_neg hb] at h
      rcases List.mem_cons.mp h with rfl | h
      · refine ⟨List.mem_cons_self a rest, ?_⟩
        intro hmem
        exact hb (contains_iff_mem.mpr hmem)
      · obtain ⟨h1, h2⟩ := keepFirstByLink_mem (b.link :: seen) rest a h
        refine ⟨List.mem_cons_of_mem b h1, ?_⟩
        intro hmem
        exact h2 (List.mem_cons_of_mem b.link hmem)

theorem keepFirstByLink_pairwise :
    ∀ (seen : List String) (l : List NewsItem),
      (keepFirstByLink seen l).Pairwise (fun a b => a.link ≠ b.link)
  | _, [] => by simp [keepFirstByLink]
  | seen, b :: rest => by
    by_cases hb : seen.contains b.link
    · rw [keepFirstByLink, if_pos hb]
      exact keepFirstByLink_pairwise seen rest
    · rw [keepFirstByLink, if_neg hb]
      refine List.Pairwise.cons ?_ (keepFirstByLink_pairwise (b.link :: seen) rest)
      intro a ha hlink
      obtain ⟨_, h2⟩ := keepFirstByLink_mem (b.link :: seen) rest a ha
      exact h2 (by rw [← hlink]; exact List.mem_cons_self b.link seen)

theorem keepFirstByLink_covers :
    ∀ (seen : List String) (l : List NewsItem) (L : String),
      L ∉ seen → L ∈ l.map (fun t => t.link) →
      ∃ a, a ∈ keepFirstByLink seen l ∧ a.link = L
  | _, [], L, _, hL => by simp at hL
  | seen, b :: rest, L, hseen, hL => by
    by_cases hb : seen.contains b.link
    · rw [keepFirstByLink, if_pos hb]
      rcases List.mem_map.mp hL with ⟨t, ht, rfl⟩
      rcases List.mem_cons.mp ht with rfl | ht
      · exact absurd (contains_iff_mem.mp hb) hseen
      · exact keepFirstByLink_covers seen rest t.link hseen
          (List.mem_map.mpr ⟨t, ht, rfl⟩)
    · rw [keepFirstByLink, if_neg hb]
      by_cases hbL : b.link = L
      · exact ⟨b, List.mem_cons_self _ _, hbL⟩
      · rcases List.mem_map.mp hL with ⟨t, ht, rfl⟩
        rcases List.mem_cons.mp ht with rfl | ht
        · exact absurd rfl hbL
        · obtain ⟨a, ha, haL⟩ :=
            keepFirstByLink_covers (b.link :: seen) rest t.link
              (by
                intro hmem
                rcases List.mem_cons.mp hmem with h | h
                · exact hbL h.symm
                · exact hseen h)
              (List.mem_map.mpr ⟨t, ht, rfl⟩)
          exact ⟨a, List.mem_cons_of_mem b ha, haL⟩

theorem keepFirstByLink_first :
    ∀ (seen : List String) (l : List NewsItem) (a : NewsItem),
      a ∈ keepFirstByLink seen l →
      (l.filter (fun t => t.link == a.link)).head? = some a
  | _, [], a, h => by simp [keepFirstByLink] at h
  | seen, b :: rest, a, h => by
    by_cases hb : seen.contains b.link
    · rw [keepFirstByLink, if_pos hb] at h
      obtain ⟨_, hnot⟩ := keepFirstByLink_mem seen rest a h
      have hne : (b.link == a.link) = false := by
        apply beq_false_of_ne
        intro heq
        exact hnot (by rw [← heq]; exact contains_iff_mem.mp hb)
      rw [List.filter_cons]
      simp only [hne, Bool.false_eq_true, if_false]
      exact keepFirstByLink_first seen rest a h
    · rw [keepFirstByLink, if_neg hb] at h
      rcases List.mem_cons.mp h with rfl | h
      · rw [List.filter_cons]
        simp
      · obtain ⟨_, hnot⟩ := keepFirstByLink_mem (b.link :: seen) rest a h
        have hne : (b.link == a.link) = false := by
          apply beq_false_of_ne
          intro heq
          exact hnot (by rw [← heq]; exact List.mem_cons_self b.link seen)
        rw [List.filter_cons]
        simp only [hne, Bool.false_eq_true, if_false]
        exact keepFirstByLink_first (b.link :: seen) rest a h

theorem processItem_eq_some {env : FetchEnv} {src : String} {idx : Nat}
    {it : RawItem} {seen : List String} {a : NewsItem}
    (h : processItem env src idx it seen = some a) :
    jsTrim it.title ≠ "" ∧ jsTrim it.link ≠ "" ∧
    ∃ t, env.parseDate it.pubDateString = some t ∧
      env.oneYearAgo ≤ t ∧ t ≤ env.now ∧ a = mkNewsItem env src idx it t := by
  by_cases h1 : jsTrim it.title = "" ∨ jsTrim it.link = ""
  · simp [processItem, h1] at h
  · by_cases h2 : it.link ∈ seen
    · simp [processItem, h1, h2] at h
    · rcases hp : env.parseDate it.pubDateString with _ | t
      · simp [processItem, h1, h2, hp] at h
      · by_cases h3 : t < env.oneYearAgo
        · simp [processItem, h1, h2, hp, h3] at h
        · by_cases h4 : env.now < t
          · simp [processItem, h1, h2, hp, h3, h4] at h
          · simp [processItem, h1, h2, hp, h3, h4] at h
            push_neg at h1
            exact ⟨h1.1, h1.2, t, rfl, le_of_not_lt h3, le_of_not_lt h4, h.symm⟩

theorem processItems_mem (env : FetchEnv) (src : String) :
    ∀ (items : List RawItem) (idx : Nat) (seen : List String) (a : NewsItem),
      a ∈ processItems env src items idx seen →
      ∃ it, it ∈ items ∧ ∃ i t,
        env.parseDate it.pubDateString = some t ∧
        jsTrim it.title ≠ "" ∧ jsTrim it.link ≠ "" ∧
        env.oneYearAgo ≤ t ∧ t ≤ env.now ∧
        a = mkNewsItem env src i it t
  | [], _, _, a, h => by simp [processItems] at h
  | it :: rest, idx, seen, a, h => by
    rw [processItems] at h
    rcases hpi : processItem env src idx it seen with _ | b
    · rw [hpi] at h
      obtain ⟨it2, hit2, rest2⟩ := processItems_mem env src rest (idx + 1) seen a h
      exact ⟨it2, List.mem_cons_of_mem it hit2, rest2⟩
    · rw [hpi] at h
      rcases List.mem_cons.mp h with rfl | h
      · obtain ⟨ht, hl, t, hp, hlo, hhi, hae⟩ := processItem_eq_some hpi
        exact ⟨it, List.mem_cons_self it rest, idx, t, hp, ht, hl, hlo, hhi, hae⟩
      · obtain ⟨it2, hit2, rest2⟩ :=
          processItems_mem env src rest (idx + 1) (it.link :: seen) a h
        exact ⟨it2, List.mem_cons_of_mem it hit2, rest2⟩

theorem fetchRSSFeedItems_mem (env : FetchEnv) (src : String)
    (items : List RawItem) (a : NewsItem)
    (h : a ∈ fetchRSSFeedItems env src items) :
    ∃ it, it ∈ items ∧ ∃ i t,
      env.parseDate it.pubDateString = some t ∧
      jsTrim it.title ≠ "" ∧ jsTrim it.link ≠ "" ∧
      env.oneYearAgo ≤ t ∧ t ≤ env.now ∧
      a = mkNewsItem env src i it t :=
  processItems_mem env src items 0 [] a (mem_sortByDateDesc.mp h)

instance : DecidableEq (Except String (List NewsItem)) :=
  fun a b =>
    match a, b with
    | Except.error x, Except.error y =>
      if h : x = y then isTrue (by rw [h]) else isFalse (by simp [h])
    | Except.ok x, Except.ok y =>
      if h : x = y then isTrue (by rw [h]) else isFalse (by simp [h])
    | Except.error _, Except.ok _ => isFalse (by simp)
    | Except.ok _, Except.error _ => isFalse (by simp)

theorem fetchAllNews_success_eq (feeds : List RSSFeed)
    (g : RSSFeed → Except String (List NewsItem)) (now : Int) (s : AggState)
    (h : activeFeedsOf feeds ≠ []) :
    fetchAllNews feeds g now s =
      { newsItems := newsWithFavoritesOf feeds g s.newsItems
        error := none
        lastUpdated := some now
        isLoading := false } := by
  unfold fetchAllNews
  rw [if_neg (fun hh => h (List.length_eq_zero.mp hh))]

theorem mem_newsWithFavoritesOf {feeds : List RSSFeed}
    {g : RSSFeed → Except String (List NewsItem)} {old : List NewsItem}
    {a : NewsItem} :
    a ∈ newsWithFavoritesOf feeds g old ↔
      ∃ b, b ∈ sortByDateDesc (uniqueNewsOf feeds g) ∧
        a = { b with isFavorite := (existingFavoriteLinks old).contains b.link } := by
  unfold newsWithFavoritesOf
  rw [List.mem_map]
  constructor
  · rintro ⟨b, hb, rfl⟩
    exact ⟨b, hb, rfl⟩
  · rintro ⟨b, hb, rfl⟩
    exact ⟨b, hb, rfl⟩

/-- C5: with zero feeds marked active, `fetchAllNews` reports the
configuration error and stops without mutating state: the article collection
and the last-updated timestamp are unchanged. -/
theorem no_active_feeds_config_error (feeds : List RSSFeed)
    (g : RSSFeed → Except String (List NewsItem)) (now : Int) (s : AggState)
    (h : activeFeedsOf feeds = []) :
    (fetchAllNews feeds g now s).newsItems = s.newsItems ∧
    (fetchAllNews feeds g now s).lastUpdated = s.lastUpdated ∧
    (fetchAllNews feeds g now s).error =
      some "No active RSS feeds configured." := by
  unfold fetchAllNews
  rw [if_pos (by rw [h]; rfl)]
  exact ⟨rfl, rfl, rfl⟩

/-- Witness for C5 at a concrete input: one inactive feed, a non-empty prior
collection and timestamp, both left untouched while the error is set. -/
theorem no_active_feeds_config_error_witness :
    (fetchAllNews [RSSFeed.mk "c" "uc" "Feed C" false] (fun _ => Except.ok [])
        7 (AggState.mk [] none (some 3) false)).newsItems =
      (AggState.mk [] none (some 3) false).newsItems ∧
    (fetchAllNews [RSSFeed.mk "c" "uc" "Feed C" false] (fun _ => Except.ok [])
        7 (AggState.mk [] none (some 3) false)).lastUpdated =
      (AggState.mk [] none (some 3) false).lastUpdated ∧
    (fetchAllNews [RSSFeed.mk "c" "uc" "Feed C" false] (fun _ => Except.ok [])
        7 (AggState.mk [] none (some 3) false)).error =
      some "No active RSS feeds configured." :=
  no_active_feeds_config_error _ _ 7 _ (by decide)

/-- C9: at most 25 feeds are fetched in one pass: the fetched list is the
first 25 active feeds in list order, and the refresh outcome depends on the
fetch function only through its values on those feeds. -/
theorem feed_cap_25 (feeds : List RSSFeed)
    (g1 g2 : RSSFeed → Except String (List NewsItem)) (now : Int) (s : AggState)
    (h : ∀ f ∈ feedsToFetchOf feeds, g1 f = g2 f) :
    (feedsToFetchOf feeds).length ≤ 25 ∧
    feedsToFetchOf feeds = (activeFeedsOf feeds).take 25 ∧
    fetchAllNews feeds g1 now s = fetchAllNews feeds g2 now s := by
  refine ⟨List.length_take_le 25 (activeFeedsOf feeds), rfl, ?_⟩
  have hall : allNewsOf feeds g1 = allNewsOf feeds g2 := by
    unfold allNewsOf
    exact congrArg List.flatten
      (List.map_congr_left (fun f hf => by rw [h f hf]))
  unfold fetchAllNews newsWithFavoritesOf uniqueNewsOf
  rw [hall]

/-- Twenty-six active feeds, with ids "0" through "25". -/
def manyFeeds : List RSSFeed :=
  (List.range 26).map (fun i => RSSFeed.mk (toString i) "u" "t" true)

/-- Fetch outcome used on the left in the C9 witness: every feed succeeds
with no articles. -/
def fetchAllOk : RSSFeed → Except String (List NewsItem) :=
  fun _ => Except.ok []

/-- Fetch outcome used on the right in the C9 witness: agrees with
`fetchAllOk` except on the 26th feed, which is never fetched. -/
def fetchDifferentOn25 : RSSFeed → Except String (List NewsItem) :=
  fun f => if f.id = "25" then Except.error "boom" else Except.ok []

/-- Witness for C9 at a concrete input: 26 active feeds, and two fetch
functions that differ only on the 26th feed produce identical refresh
results, because only the first 25 active feeds are fetched. -/
theorem feed_cap_25_witness :
    (feedsToFetchOf manyFeeds).length ≤ 25 ∧
    feedsToFetchOf manyFeeds = (activeFeedsOf manyFeeds).take 25 ∧
    fetchAllNews manyFeeds fetchAllOk 7 (AggState.mk [] none none false) =
      fetchAllNews manyFeeds fetchDifferentOn25 7
        (AggState.mk [] none none false) :=
  feed_cap_25 manyFeeds fetchAllOk fetchDifferentOn25 7
    (AggState.mk [] none none false) (by decide)

/-- C10: after a successful refresh, an article is marked favorite exactly
when its `link` was among the favorite links of the outgoing collection; a
favorite flag on a freshly fetched item whose link was not previously
favorited is cleared. -/
theorem favorites_exact (feeds : List RSSFeed)
    (g : RSSFeed → Except String (List NewsItem)) (now : Int) (s : AggState)
    (hact : activeFeedsOf feeds ≠ []) :
    ∀ a ∈ (fetchAllNews feeds g now s).newsItems,
      (a.isFavorite = true ↔ a.link ∈ existingFavoriteLinks s.newsItems) := by
  intro a ha
  rw [fetchAllNews_success_eq feeds g now s hact] at ha
  obtain ⟨b, _, rfl⟩ := mem_newsWithFavoritesOf.mp ha
  constructor
  · intro hfav
    exact contains_iff_mem.mp hfav
  · intro hmem
    exact contains_iff_mem.mpr hmem

/-- Witness for C10 at a concrete input: the old collection favorites link
"l1" only; in the refreshed collection the article with link "l1" is marked
favorite exactly because "l1" is among the outgoing favorite links. -/
theorem favorites_exact_witness :
    (NewsItem.mk "n1" "T1" "D1" "l1" 5 "General" "S" none true).isFavorite =
        true ↔
      (NewsItem.mk "n1" "T1" "D1" "l1" 5 "General" "S" none true).link ∈
        existingFavoriteLinks
          [NewsItem.mk "o1" "T0" "D0" "l1" 1 "General" "S" none true] :=
  favorites_exact [RSSFeed.mk "a" "ua" "Feed A" true]
    (fun _ => Except.ok
      [NewsItem.mk "n1" "T1" "D1" "l1" 5 "General" "S" none false,
       NewsItem.mk "n2" "T2" "D2" "l2" 4 "General" "S" none true])
    9
    (AggState.mk
      [NewsItem.mk "o1" "T0" "D0" "l1" 1 "General" "S" none true] none
      none false)
    (by decide)
    (NewsItem.mk "n1" "T1" "D1" "l1" 5 "General" "S" none true)
    (by decide)

/-- C3: an article favorited in the outgoing collection stays favorite after
a refresh whenever the new raw fetch again yields an article with the same
`link` — favorites are keyed by `link`, not by the generated id. -/
theorem favorite_preserved (feeds : List RSSFeed)
    (g : RSSFeed → Except String (List NewsItem)) (now : Int) (s : AggState)
    (L : String)
    (hact : activeFeedsOf feeds ≠ [])
    (hold : ∃ x ∈ s.newsItems, x.isFavorite = true ∧ x.link = L)
    (hnew : L ∈ (allNewsOf feeds g).map (fun t => t.link)) :
    ∃ a ∈ (fetchAllNews feeds g now s).newsItems,
      a.link = L ∧ a.isFavorite = true := by
  obtain ⟨b, hb, hbL⟩ :=
    keepFirstByLink_covers [] (allNewsOf feeds g) L (by simp) hnew
  have hbs : b ∈ sortByDateDesc (uniqueNewsOf feeds g) :=
    mem_sortByDateDesc.mpr hb
  refine ⟨{ b with
      isFavorite := (existingFavoriteLinks s.newsItems).contains b.link }, ?_, hbL, ?_⟩
  · rw [fetchAllNews_success_eq feeds g now s hact]
    exact mem_newsWithFavoritesOf.mpr ⟨b, hbs, rfl⟩
  · obtain ⟨x, hx, hxfav, hxL⟩ := hold
    have hLmem : L ∈ existingFavoriteLinks s.newsItems :=
      List.mem_map.mpr ⟨x, List.mem_filter.mpr ⟨hx, by simp [hxfav]⟩, hxL⟩
    exact contains_iff_mem.mpr (hbL ▸ hLmem)

/-- Witness for C3 at a concrete input: link "l1" is favorited before the
refresh and fetched again (under a fresh id); after the refresh the article
with link "l1" is favorite. -/
theorem favorite_preserved_witness :
    ∃ a ∈ (fetchAllNews [RSSFeed.mk "a" "ua" "Feed A" true]
        (fun _ => Except.ok
          [NewsItem.mk "n1" "T1" "D1" "l1" 5 "General" "S" none false])
        9
        (AggState.mk
          [NewsItem.mk "o1" "T0" "D0" "l1" 1 "General" "S" none true] none
          none false)).newsItems,
      a.link = "l1" ∧ a.isFavorite = true :=
  favorite_preserved _ _ 9 _ "l1" (by decide) (by decide) (by decide)

/-- C1: in the refreshed collection the `link` values are pairwise distinct;
every link of the flattened per-feed pool is represented; and each surviving
article is (up to the reconciled favorite flag) the first occurrence of its
link in the flattened per-feed order. -/
theorem links_unique_first_wins (feeds : List RSSFeed)
    (g : RSSFeed → Except String (List NewsItem)) (now : Int) (s : AggState)
    (hact : activeFeedsOf feeds ≠ []) :
    (fetchAllNews feeds g now s).newsItems.Pairwise
      (fun a b => a.link ≠ b.link) ∧
    (∀ L, L ∈ (allNewsOf feeds g).map (fun t => t.link) →
      ∃ a ∈ (fetchAllNews feeds g now s).newsItems, a.link = L) ∧
    (∀ a ∈ (fetchAllNews feeds g now s).newsItems,
      ∃ b, ((allNewsOf feeds g).filter (fun t => t.link == a.link)).head? =
          some b ∧
        a = { b with isFavorite := a.isFavorite }) := by
  have hnwf : (fetchAllNews feeds g now s).newsItems =
      newsWithFavoritesOf feeds g s.newsItems := by
    rw [fetchAllNews_success_eq feeds g now s hact]
  have hsymm : Symmetric (fun a b : NewsItem => a.link ≠ b.link) :=
    fun a b h heq => h heq.symm
  refine ⟨?_, ?_, ?_⟩
  · rw [hnwf]
    have h1 : (uniqueNewsOf feeds g).Pairwise (fun a b => a.link ≠ b.link) :=
      keepFirstByLink_pairwise [] (allNewsOf feeds g)
    have h2 : (sortByDateDesc (uniqueNewsOf feeds g)).Pairwise
        (fun a b => a.link ≠ b.link) :=
      ((sortByDateDesc_perm (uniqueNewsOf feeds g)).pairwise_iff @hsymm).mpr h1
    exact h2.map _ (fun a b hab => hab)
  · intro L hL
    obtain ⟨b, hb, hbL⟩ :=
      keepFirstByLink_covers [] (allNewsOf feeds g) L (by simp) hL
    refine ⟨{ b with
        isFavorite :=
          (existingFavoriteLinks s.newsItems).contains b.link }, ?_, hbL⟩
    rw [hnwf]
    exact mem_newsWithFavoritesOf.mpr ⟨b, mem_sortByDateDesc.mpr hb, rfl⟩
  · intro a ha
    rw [hnwf] at ha
    obtain ⟨b, hbs, rfl⟩ := mem_newsWithFavoritesOf.mp ha
    exact ⟨b, keepFirstByLink_first [] (allNewsOf feeds g) b
      (mem_sortByDateDesc.mp hbs), rfl⟩

/-- Witness for C1 at a concrete input: feeds A and B both yield an article
with link "dup"; the merged result keeps exactly one of them, namely A's
(the first in flattened order), alongside A's other article. -/
theorem links_unique_first_wins_witness :
    (fetchAllNews
        [RSSFeed.mk "a" "ua" "Feed A" true, RSSFeed.mk "b" "ub" "Feed B" true]
        (fun f =>
          if f.id = "a" then
            Except.ok
              [NewsItem.mk "n1" "T1" "D1" "dup" 5 "General" "Feed A" none false,
               NewsItem.mk "n2" "T2" "D2" "u1" 3 "General" "Feed A" none false]
          else
            Except.ok
              [NewsItem.mk "n3" "T3" "D3" "dup" 7 "General" "Feed B" none false])
        9 (AggState.mk [] none none false)).newsItems.Pairwise
      (fun a b => a.link ≠ b.link) ∧
    (∀ L, L ∈ (allNewsOf
        [RSSFeed.mk "a" "ua" "Feed A" true, RSSFeed.mk "b" "ub" "Feed B" true]
        (fun f =>
          if f.id = "a" then
            Except.ok
              [NewsItem.mk "n1" "T1" "D1" "dup" 5 "General" "Feed A" none false,
               NewsItem.mk "n2" "T2" "D2" "u1" 3 "General" "Feed A" none false]
          else
            Except.ok
              [NewsItem.mk "n3" "T3" "D3" "dup" 7 "General" "Feed B" none
                false])).map (fun t => t.link) →
      ∃ a ∈ (fetchAllNews
          [RSSFeed.mk "a" "ua" "Feed A" true, RSSFeed.mk "b" "ub" "Feed B" true]
          (fun f =>
            if f.id = "a" then
              Except.ok
                [NewsItem.mk "n1" "T1" "D1" "dup" 5 "General" "Feed A" none
                  false,
                 NewsItem.mk "n2" "T2" "D2" "u1" 3 "General" "Feed A" none
                  false]
            else
              Except.ok
                [NewsItem.mk "n3" "T3" "D3" "dup" 7 "General" "Feed B" none
                  false])
          9 (AggState.mk [] none none false)).newsItems, a.link = L) ∧
    (∀ a ∈ (fetchAllNews
        [RSSFeed.mk "a" "ua" "Feed A" true, RSSFeed.mk "b" "ub" "Feed B" true]
        (fun f =>
          if f.id = "a" then
            Except.ok
              [NewsItem.mk "n1" "T1" "D1" "dup" 5 "General" "Feed A" none false,
               NewsItem.mk "n2" "T2" "D2" "u1" 3 "General" "Feed A" none false]
          else
            Except.ok
              [NewsItem.mk "n3" "T3" "D3" "dup" 7 "General" "Feed B" none
                false])
        9 (AggState.mk [] none none false)).newsItems,
      ∃ b, ((allNewsOf
          [RSSFeed.mk "a" "ua" "Feed A" true, RSSFeed.mk "b" "ub" "Feed B" true]
          (fun f =>
            if f.id = "a" then
              Except.ok
                [NewsItem.mk "n1" "T1" "D1" "dup" 5 "General" "Feed A" none
                  false,
                 NewsItem.mk "n2" "T2" "D2" "u1" 3 "General" "Feed A" none
                  false]
            else
              Except.ok
                [NewsItem.mk "n3" "T3" "D3" "dup" 7 "General" "Feed B" none
                  false])).filter (fun t => t.link == a.link)).head? = some b ∧
        a = { b with isFavorite := a.isFavorite }) :=
  links_unique_first_wins _ _ 9 _ (by decide)

/-- C4: per-feed failure isolation: with at least one active feed, the
refresh reports success (no error, last-updated recorded) and the flattened
pool is exactly the successful feeds' article lists, failed feeds
contributing the empty list; a top-level fetch failure in `fetchRSSFeed`
itself yields the empty list. -/
theorem per_feed_failure_isolation (feeds : List RSSFeed)
    (g : RSSFeed → Except String (List NewsItem)) (now : Int) (s : AggState)
    (hact : activeFeedsOf feeds ≠ []) :
    (fetchAllNews feeds g now s).error = none ∧
    (fetchAllNews feeds g now s).lastUpdated = some now ∧
    allNewsOf feeds g =
      (List.map (fun f =>
        match g f with
        | Except.ok items => items
        | Except.error _ => []) (feedsToFetchOf feeds)).flatten ∧
    (∀ (env : FetchEnv) (src : String),
      fetchRSSFeed env src FetchOutcome.fail = []) := by
  refine ⟨?_, ?_, ?_, fun env src => rfl⟩
  · rw [fetchAllNews_success_eq feeds g now s hact]
  · rw [fetchAllNews_success_eq feeds g now s hact]
  · unfold allNewsOf
    exact congrArg List.flatten
      (List.map_congr_left (fun f _ => by cases hgf : g f <;> rfl))

/-- Witness for C4 at a concrete input: feed A's fetch is rejected (timeout),
feed B's succeeds; the pool is exactly B's articles, the error is clear and
the timestamp recorded. -/
theorem per_feed_failure_isolation_witness :
    (fetchAllNews
        [RSSFeed.mk "a" "ua" "Feed A" true, RSSFeed.mk "b" "ub" "Feed B" true]
        (fun f =>
          if f.id = "a" then Except.error "timeout"
          else Except.ok
            [NewsItem.mk "n3" "T3" "D3" "b1" 4 "General" "Feed B" none false])
        9 (AggState.mk [] none none false)).error = none ∧
    (fetchAllNews
        [RSSFeed.mk "a" "ua" "Feed A" true, RSSFeed.mk "b" "ub" "Feed B" true]
        (fun f =>
          if f.id = "a" then Except.error "timeout"
          else Except.ok
            [NewsItem.mk "n3" "T3" "D3" "b1" 4 "General" "Feed B" none false])
        9 (AggState.mk [] none none false)).lastUpdated = some 9 ∧
    allNewsOf
        [RSSFeed.mk "a" "ua" "Feed A" true, RSSFeed.mk "b" "ub" "Feed B" true]
        (fun f =>
          if f.id = "a" then Except.error "timeout"
          else Except.ok
            [NewsItem.mk "n3" "T3" "D3" "b1" 4 "General" "Feed B" none false]) =
      (List.map (fun f =>
        match (fun f : RSSFeed =>
          if f.id = "a" then Except.error "timeout"
          else Except.ok
            [NewsItem.mk "n3" "T3" "D3" "b1" 4 "General" "Feed B" none
              false]) f with
        | Except.ok items => items
        | Except.error _ => [])
        (feedsToFetchOf
          [RSSFeed.mk "a" "ua" "Feed A" true,
           RSSFeed.mk "b" "ub" "Feed B" true])).flatten ∧
    (∀ (env : FetchEnv) (src : String),
      fetchRSSFeed env src FetchOutcome.fail = []) :=
  per_feed_failure_isolation _ _ 9 _ (by decide)

/-- C2: every article accepted by the fetcher carries a publication timestamp
inside the acceptance window — at least one year ago, at most now — and that
timestamp is exactly the parse of some fetched item's raw publication date;
unparseable, too-old and future dates never produce an article. -/
theorem pubdate_window (env : FetchEnv) (src : String) (items : List RawItem) :
    ∀ a ∈ fetchRSSFeedItems env src items,
      env.oneYearAgo ≤ a.pubDate ∧ a.pubDate ≤ env.now ∧
      ∃ it ∈ items, env.parseDate it.pubDateString = some a.pubDate := by
  intro a ha
  obtain ⟨it, hit, i, t, hp, _, _, hlo, hhi, rfl⟩ :=
    fetchRSSFeedItems_mem env src items a ha
  exact ⟨hlo, hhi, it, hit, hp⟩

/-- Simple decimal parser used as the concrete `parseDate` of `envEx`:
accepts non-empty all-digit strings. -/
def parseDecimal (s : String) : Option Int :=
  if s.data ≠ [] ∧ s.data.all Char.isDigit then
    some (Int.ofNat (s.data.foldl (fun acc c => acc * 10 + (c.toNat - 48)) 0))
  else none

/-- Fetch environment used by the concrete fetcher examples: dates parse as
decimal integers, the acceptance window is [0, 1000], categorization is
constant, ids are source-ordinal, and the description image scan finds
nothing. -/
def envEx : FetchEnv :=
  { parseDate := parseDecimal
    oneYearAgo := 0
    now := 1000
    categorize := fun _ _ => "General"
    genId := fun src i => src ++ "-" ++ toString i
    imgScan := fun _ => none }

/-- A well-formed raw item: plain title, in-window date. -/
def itemGood : RawItem :=
  { title := "Hello <b>World</b>"
    description := "Some <p>description</p> here"
    link := "https://ex.org/1"
    pubDateString := "50"
    mediaContentUrl := none
    enclosureUrl := none }

/-- Witness for C2 at a concrete input: the single accepted article of
`itemGood` has its parsed timestamp 50 inside the window [0, 1000]. -/
theorem pubdate_window_witness :
    envEx.oneYearAgo ≤ (mkNewsItem envEx "Src" 0 itemGood 50).pubDate ∧
    (mkNewsItem envEx "Src" 0 itemGood 50).pubDate ≤ envEx.now ∧
    ∃ it ∈ [itemGood],
      envEx.parseDate it.pubDateString =
        some (mkNewsItem envEx "Src" 0 itemGood 50).pubDate :=
  pubdate_window envEx "Src" [itemGood]
    (mkNewsItem envEx "Src" 0 itemGood 50) (by decide)

/-- A raw item whose title consists only of HTML tags: it passes the
non-empty-title check (the raw title is non-empty) but strips to the empty
string. -/
def itemTagOnlyTitle : RawItem :=
  { title := "<b></b>"
    description := "d"
    link := "L"
    pubDateString := "5"
    mediaContentUrl := none
    enclosureUrl := none }

/-- Counterexample to C7 as stated: the fetcher accepts an item whose raw
title is `<b></b>` (non-empty before stripping), and the returned article's
stored title is the empty string — so the returned list does contain an
article with an empty title. -/
theorem empty_stored_title_cx :
    ∃ a ∈ fetchRSSFeedItems envEx "Src" [itemTagOnlyTitle],
      a.title = "" ∧ a.link = "L" := by decide

/-- C7 (amended): the fetcher rejects items whose raw title or raw link is
empty or whitespace-only; consequently every returned article has a
non-whitespace link and originates from an item with a non-whitespace raw
title, its stored title being that raw title with HTML tags stripped (which
can itself be empty). -/
theorem title_link_validation (env : FetchEnv) (src : String)
    (items : List RawItem) :
    ∀ a ∈ fetchRSSFeedItems env src items,
      jsTrim a.link ≠ "" ∧
      ∃ it ∈ items, jsTrim it.title ≠ "" ∧ jsTrim it.link ≠ "" ∧
        a.link = it.link ∧ a.title = stripHtmlTags it.title := by
  intro a ha
  obtain ⟨it, hit, i, t, _, ht, hl, _, _, rfl⟩ :=
    fetchRSSFeedItems_mem env src items a ha
  exact ⟨hl, it, hit, ht, hl, rfl, rfl⟩

/-- Witness for the amended C7 at a concrete input. -/
theorem title_link_validation_witness :
    jsTrim (mkNewsItem envEx "Src" 0 itemGood 50).link ≠ "" ∧
    ∃ it ∈ [itemGood], jsTrim it.title ≠ "" ∧ jsTrim it.link ≠ "" ∧
      (mkNewsItem envEx "Src" 0 itemGood 50).link = it.link ∧
      (mkNewsItem envEx "Src" 0 itemGood 50).title = stripHtmlTags it.title :=
  title_link_validation envEx "Src" [itemGood]
    (mkNewsItem envEx "Src" 0 itemGood 50) (by decide)

/-- C8: every returned article's stored title is the raw title with HTML
tags stripped, and its stored description is the raw description with HTML
tags stripped, truncated to at most 200 characters, with the ellipsis marker
appended. -/
theorem title_description_normalized (env : FetchEnv) (src : String)
    (items : List RawItem) :
    ∀ a ∈ fetchRSSFeedItems env src items,
      ∃ it ∈ items, a.title = stripHtmlTags it.title ∧
        a.description = takeChars 200 (stripHtmlTags it.description) ++ "..." := by
  intro a ha
  obtain ⟨it, hit, i, t, _, _, _, _, _, rfl⟩ :=
    fetchRSSFeedItems_mem env src items a ha
  exact ⟨it, hit, rfl, rfl⟩

/-- Witness for C8 at a concrete input. -/
theorem title_description_normalized_witness :
    ∃ it ∈ [itemGood],
      (mkNewsItem envEx "Src" 0 itemGood 50).title = stripHtmlTags it.title ∧
      (mkNewsItem envEx "Src" 0 itemGood 50).description =
        takeChars 200 (stripHtmlTags it.description) ++ "..." :=
  title_description_normalized envEx "Src" [itemGood]
    (mkNewsItem envEx "Src" 0 itemGood 50) (by decide)

theorem filter_eq_nil_of_not_mem (σ : List Nat) (i : Nat) (h : i ∉ σ) :
    σ.filter (fun j => j = i) = [] :=
  List.filter_eq_nil_iff.mpr
    (fun _ ha hai => h ((of_decide_eq_true hai) ▸ ha : i ∈ σ))

theorem filter_eq_single :
    ∀ (σ : List Nat) (i : Nat), σ.Nodup → i ∈ σ →
      σ.filter (fun j => j = i) = [i]
  | [], i, _, hi => absurd hi (List.not_mem_nil i)
  | j :: rest, i, hnd, hi => by
    rcases List.nodup_cons.mp hnd with ⟨hjr, hndr⟩
    by_cases hji : j = i
    · subst hji
      simp [List.filter_cons, filter_eq_nil_of_not_mem rest j hjr]
    · have hir : i ∈ rest := by
        rcases List.mem_cons.mp hi with h | h
        · exact absurd h.symm hji
        · exact h
      simp only [List.filter_cons, decide_eq_true_eq]
      rw [if_neg hji]
      exact filter_eq_single rest i hndr hir

theorem joinArrivals_map (v : Nat → List NewsItem) (n : Nat) (σ : List Nat)
    (hσ : σ.Perm (List.range n)) :
    joinArrivals n (σ.map (fun i => (i, v i))) = (List.range n).map v := by
  unfold joinArrivals
  apply List.map_congr_left
  intro i hi
  have hiσ : i ∈ σ := hσ.mem_iff.mpr hi
  have hnd : σ.Nodup := hσ.nodup_iff.mpr (List.nodup_range n)
  have hfil : (σ.map (fun j => (j, v j))).filter (fun p => p.1 = i) =
      (σ.filter (fun j => j = i)).map (fun j => (j, v j)) := by
    rw [List.filter_map]
    exact congrArg _ (List.filter_congr (fun j _ => rfl))
  rw [hfil, filter_eq_single σ i hnd hiσ]
  rfl

theorem map_getD_range :
    ∀ (l : List (List NewsItem)),
      (List.range l.length).map (fun i => l.getD i []) = l
  | [] => rfl
  | x :: xs => by
    rw [List.length_cons, List.range_succ_eq_map, List.map_cons, List.map_map]
    have h2 : ((fun i => (x :: xs).getD i []) ∘ Nat.succ) =
        (fun i => xs.getD i []) := funext (fun i => rfl)
    rw [h2]
    rw [map_getD_range xs]
    rfl

/-- C6: the refreshed collection is sorted by publication date descending,
and the outcome is independent of the completion order of the concurrent
per-feed fetches: reassembling the settled results in any arrival order `σ`
(a permutation of the fetch slots) produces the same state as the
index-ordered join. -/
theorem sorted_and_schedule_independent (feeds : List RSSFeed)
    (g : RSSFeed → Except String (List NewsItem)) (σ : List Nat) (now : Int)
    (s : AggState)
    (hσ : σ.Perm (List.range (feedsToFetchOf feeds).length))
    (hact : activeFeedsOf feeds ≠ []) :
    fetchAllNewsScheduled feeds g σ now s = fetchAllNews feeds g now s ∧
    ((fetchAllNews feeds g now s).newsItems).Sorted
      (fun a b => b.pubDate ≤ a.pubDate) := by
  have hcond : ¬ ((activeFeedsOf feeds).length = 0) :=
    fun hh => hact (List.length_eq_zero.mp hh)
  constructor
  · have hlen :
        (List.map (fun feed => settleFetch (g feed))
          (feedsToFetchOf feeds)).length = (feedsToFetchOf feeds).length :=
      List.length_map _ _
    have hperm : σ.Perm (List.range
        (List.map (fun feed => settleFetch (g feed))
          (feedsToFetchOf feeds)).length) := by
      rw [hlen]
      exact hσ
    have hj := joinArrivals_map
      (fun i => (List.map (fun feed => settleFetch (g feed))
        (feedsToFetchOf feeds)).getD i [])
      (List.map (fun feed => settleFetch (g feed))
        (feedsToFetchOf feeds)).length σ hperm
    simp only [fetchAllNewsScheduled, fetchAllNews, if_neg hcond]
    rw [hj, map_getD_range]
    rfl
  · rw [fetchAllNews_success_eq feeds g now s hact]
    have hs : (sortByDateDesc (uniqueNewsOf feeds g)).Sorted dateGE :=
      sortByDateDesc_sorted (uniqueNewsOf feeds g)
    exact hs.map _ (fun a b hab => hab)

/-- Witness for C6 at a concrete input: two active feeds whose results
arrive in reversed order (`σ = [1, 0]`) give the same state as the
index-ordered join, and the result is sorted newest-first. -/
theorem sorted_and_schedule_independent_witness :
    fetchAllNewsScheduled
        [RSSFeed.mk "a" "ua" "Feed A" true, RSSFeed.mk "b" "ub" "Feed B" true]
        (fun f =>
          if f.id = "a" then
            Except.ok
              [NewsItem.mk "n1" "T1" "D1" "l1" 3 "General" "Feed A" none false]
          else
            Except.ok
              [NewsItem.mk "n2" "T2" "D2" "l2" 8 "General" "Feed B" none
                false])
        [1, 0] 9 (AggState.mk [] none none false) =
      fetchAllNews
        [RSSFeed.mk "a" "ua" "Feed A" true, RSSFeed.mk "b" "ub" "Feed B" true]
        (fun f =>
          if f.id = "a" then
            Except.ok
              [NewsItem.mk "n1" "T1" "D1" "l1" 3 "General" "Feed A" none false]
          else
            Except.ok
              [NewsItem.mk "n2" "T2" "D2" "l2" 8 "General" "Feed B" none
                false])
        9 (AggState.mk [] none none false) ∧
    ((fetchAllNews
        [RSSFeed.mk "a" "ua" "Feed A" true, RSSFeed.mk "b" "ub" "Feed B" true]
        (fun f =>
          if f.id = "a" then
            Except.ok
              [NewsItem.mk "n1" "T1" "D1" "l1" 3 "General" "Feed A" none false]
          else
            Except.ok
              [NewsItem.mk "n2" "T2" "D2" "l2" 8 "General" "Feed B" none
                false])
        9 (AggState.mk [] none none false)).newsItems).Sorted
      (fun a b => b.pubDate ≤ a.pubDate) :=
  sorted_and_schedule_independent _ _ [1, 0] 9 _ (by decide) (by decide)
